import Mathlib

/-!
Shallow embedding of the rubbledb SSTable core (src/util/coding.rs,
src/table/block_builder.rs, src/table/block.rs, src/table/format.rs).

Conventions of the embedding:
* Byte buffers and slices are `List Nat`, each element standing for one `u8`
  (well-formed buffers have all elements `< 256`; theorems that need this
  well-formedness take it as a hypothesis).
* Machine integers are `Nat` with explicit `% 2^8 / % 2^32 / % 2^64`
  truncation exactly where the Rust code performs an `as` cast or a
  value-truncating shift.
* Fallible Rust code returns `RRes`: `.ok` for `Result::Ok`, `.err` for
  `Result::Err` (carrying the `RubbleError` variant built by the source),
  `.panicked` for a Rust panic (failed `assert!`, out-of-bounds index or
  slice, `unwrap`/`expect` failure, debug-build arithmetic overflow), and
  `.fuelOut` for a source loop that is still running after the explicit
  fuel supplied to its embedding (the loops given fuel below have no
  a-priori termination bound in the source).
-/

namespace Rubble

/-- src/status.rs: the `Status` enum. -/
inductive Status where
  | ok : Status
  | notFound : String → Status
  | corruption : String → Status
  | notSupported : String → Status
  | invalidArgument : String → Status
  | ioError : String → Status
deriving DecidableEq, Repr

/-- src/errors.rs: the `RubbleError` variants reachable from the embedded
code: `Status(err)` and the `&'static str` conversions
(`Other`/`GeneralError`, both carrying the message). -/
inductive RubbleError where
  | status : Status → RubbleError
  | other : String → RubbleError
deriving DecidableEq, Repr

/-- Result of running a piece of embedded Rust code: `Ok`, `Err`, a panic,
or "still looping after the supplied fuel". -/
inductive RRes (α : Type) where
  | ok : α → RRes α
  | err : RubbleError → RRes α
  | panicked : RRes α
  | fuelOut : RRes α
deriving DecidableEq, Repr

def RRes.map {α β : Type} (f : α → β) : RRes α → RRes β
  | .ok a => .ok (f a)
  | .err e => .err e
  | .panicked => .panicked
  | .fuelOut => .fuelOut

/-- The four little-endian bytes of a value already reduced below `2^32`. -/
def fixed32Bytes (v : Nat) : List Nat :=
  [v % 256, v / 256 % 256, v / 65536 % 256, v / 16777216 % 256]

/-- src/util/coding.rs `put_fixed32`: appends the 4-byte little-endian
encoding.  Modelled from the spec for the missing `port` module: the spec
says the byte order is a process-wide target-endianness setting used
consistently by both `put_fixed32` and `decode_fixed32`; we model the
little-endian setting. The `% 2^32` reflects the `as u32` casts performed
by every caller that passes a `usize`. -/
def putFixed32 (buff : List Nat) (v : Nat) : List Nat :=
  buff ++ fixed32Bytes (v % 4294967296)

/-- src/util/coding.rs `decode_fixed32`: reads `slice[..4]` (panicking when
fewer than 4 bytes are available) and decodes little-endian. -/
def decodeFixed32 (slice : List Nat) : RRes Nat :=
  match slice with
  | a :: b :: c :: d :: _ => .ok (a + 256 * b + 65536 * c + 16777216 * d)
  | _ => .panicked

/-- src/util/coding.rs `put_varint32`, byte for byte: the first byte of a
multi-byte encoding is `(v | 128) as u8`, and every later byte is
`(v >> 7*k) as u8` — with neither the `& 127` mask nor the continuation
bit that the varint format requires on intermediate bytes.  Returns the
new buffer and the count the function reports. -/
def putVarint32 (buff : List Nat) (v : Nat) : List Nat × Nat :=
  if v < 128 then (buff ++ [v % 256], 1)
  else if v < 16384 then
    (buff ++ [(v ||| 128) % 256, v / 128 % 256], 2)
  else if v < 2097152 then
    (buff ++ [(v ||| 128) % 256, v / 128 % 256, v / 16384 % 256], 3)
  else if v < 268435456 then
    (buff ++ [(v ||| 128) % 256, v / 128 % 256, v / 16384 % 256, v / 2097152 % 256], 4)
  else
    (buff ++ [(v ||| 128) % 256, v / 128 % 256, v / 16384 % 256, v / 2097152 % 256,
              v / 268435456 % 256], 5)

/-- src/util/coding.rs `put_varint64`: `while v >= 128` push
`((v & 127) | 128) as u8` and shift; the loop never pushes the final
(continuation-bit-clear) byte, and `bytes` counts only the pushed bytes. -/
def putVarint64 (buff : List Nat) (v : Nat) : List Nat × Nat :=
  if h : 128 ≤ v then
    have : v / 128 < v := Nat.div_lt_self (by omega) (by norm_num)
    let r := putVarint64 (buff ++ [(v % 128) ||| 128]) (v / 128)
    (r.1, r.2 + 1)
  else (buff, 0)
termination_by v

/-- src/util/coding.rs `get_varint64` inner loop: `i` is the group index
(shift = `7*i`), `p` the read position, and `rem = 10 - i` the remaining
iterations of the ten-round `for` loop.  Leaving the loop — either after
ten groups or because `p >= slice.len()` — returns the
`IOError("Unable to read varin64")` built by the source. -/
def getVarint64Go (slice : List Nat) (p result i : Nat) : Nat → RRes (List Nat × Nat)
  | 0 => .err (.status (.ioError "Unable to read varin64"))
  | rem + 1 =>
    if hp : p < slice.length then
      let byte := slice.get ⟨p, hp⟩
      if byte &&& 128 ≠ 0 then
        getVarint64Go slice (p + 1)
          ((result ||| (((byte &&& 127) <<< (7 * i)) % 18446744073709551616))) (i + 1) rem
      else
        .ok (slice.drop (p + 1), (result ||| ((byte <<< (7 * i)) % 18446744073709551616)))
    else .err (.status (.ioError "Unable to read varin64"))

/-- src/util/coding.rs `get_varint64`. -/
def getVarint64 (slice : List Nat) : RRes (List Nat × Nat) :=
  getVarint64Go slice 0 0 0 10

/-- src/util/coding.rs (and its older copy in src/util.rs)
`get_varint32_ptr_fallback` inner loop.  Faithful to the source's mistakes:
`result` is inferred as `u8` (so all accumulation is mod 256), the slice is
indexed at `p[shift]` while `p` advances only one byte per iteration, and
the `u8` shifts by 14/21/28 overflow the shift amount, which panics in a
debug build.  `rem = 5 - i` counts the remaining loop rounds. -/
def getVarint32FallbackGo (p : List Nat) (result i : Nat) : Nat → RRes (List Nat × Nat)
  | 0 => .err (.other "missed the ptr fallback or something")
  | rem + 1 =>
    let shift := 7 * i
    if hp : shift < p.length then
      let byte := p.get ⟨shift, hp⟩
      let p' := p.drop 1
      if 8 ≤ shift then .panicked
      else if byte &&& 128 ≠ 0 then
        getVarint32FallbackGo p' ((result ||| (((byte &&& 127) <<< shift) % 256)) % 256) (i + 1) rem
      else
        .ok (p', (result ||| ((byte <<< shift) % 256)) % 256)
    else .panicked

/-- src/util/coding.rs `get_varint32_ptr_fallback`; `5` is the round count
of its `for` loop. -/
def getVarint32Fallback (p : List Nat) : RRes (List Nat × Nat) :=
  getVarint32FallbackGo p 0 0 5

/-- Modelled from the spec: src/comparator.rs only declares the
`SliceComparator` trait and no concrete comparator ships under src/, so the
default ordering is missing from the sources.  The spec describes it as the
"Ordering comparator over byte keys: `compare(a, b) -> {less, equal,
greater}`"; we model the bytewise lexicographic comparator returning
-1/0/1.  All component functions below stay parametric in the comparator;
`lexCompare` only instantiates them in concrete evaluations. -/
def lexCompare : List Nat → List Nat → Int
  | [], [] => 0
  | [], _ :: _ => -1
  | _ :: _, [] => 1
  | a :: as', b :: bs' =>
    if a < b then -1 else if b < a then 1 else lexCompare as' bs'

/-- src/table/block_builder.rs `BlockBuilder::add` shared-length loop:
`while shared < min_length && last_key_piece[shared] == key[shared]`. -/
def sharedLen : List Nat → List Nat → Nat
  | a :: as', b :: bs' => if a = b then sharedLen as' bs' + 1 else 0
  | _, _ => 0

/-- A UTF-8 continuation byte, `0x80..=0xBF`. -/
def utf8Cont (b : Nat) : Bool := decide (128 ≤ b ∧ b ≤ 191)

/-- UTF-8 well-formedness of a byte sequence, as enforced by Rust's
`str::from_utf8` (which `BlockIterator::parse_next_key` calls with
`.expect(..)`, panicking on invalid input). -/
def utf8Valid : List Nat → Bool
  | [] => true
  | b :: rest =>
    if b < 128 then utf8Valid rest
    else if 194 ≤ b ∧ b ≤ 223 then
      match rest with
      | c :: r => utf8Cont c && utf8Valid r
      | [] => false
    else if b = 224 then
      match rest with
      | c :: d :: r => decide (160 ≤ c ∧ c ≤ 191) && utf8Cont d && utf8Valid r
      | _ => false
    else if (225 ≤ b ∧ b ≤ 236) ∨ (238 ≤ b ∧ b ≤ 239) then
      match rest with
      | c :: d :: r => utf8Cont c && utf8Cont d && utf8Valid r
      | _ => false
    else if b = 237 then
      match rest with
      | c :: d :: r => decide (128 ≤ c ∧ c ≤ 159) && utf8Cont d && utf8Valid r
      | _ => false
    else if b = 240 then
      match rest with
      | c :: d :: e :: r => decide (144 ≤ c ∧ c ≤ 191) && utf8Cont d && utf8Cont e && utf8Valid r
      | _ => false
    else if 241 ≤ b ∧ b ≤ 243 then
      match rest with
      | c :: d :: e :: r => utf8Cont c && utf8Cont d && utf8Cont e && utf8Valid r
      | _ => false
    else if b = 244 then
      match rest with
      | c :: d :: e :: r => decide (128 ≤ c ∧ c ≤ 143) && utf8Cont d && utf8Cont e && utf8Valid r
      | _ => false
    else false

/-- src/table/block_builder.rs `BlockBuilder` state.  The `options`
reference is split off: the restart interval and the comparator are passed
to the operations that read them. -/
structure BlockBuilder where
  buffer : List Nat
  restarts : List Nat
  counter : Nat
  finished : Bool
  lastKey : List Nat
deriving DecidableEq, Repr

/-- src/table/block_builder.rs: the state produced by `BlockBuilder::new`
and restored by `reset()`: empty buffer, restart list `[0]`, counter 0. -/
def freshBuilder : BlockBuilder :=
  { buffer := [], restarts := [0], counter := 0, finished := false, lastKey := [] }

/-- src/table/block_builder.rs `BlockBuilder::new`: asserts
`block_restart_interval >= 1` (panicking otherwise) and builds the fresh
state. -/
def BlockBuilder.new (interval : Nat) : RRes BlockBuilder :=
  if 1 ≤ interval then .ok freshBuilder else .panicked

/-- src/table/block_builder.rs `BlockBuilder::reset`. -/
def BlockBuilder.reset (_ : BlockBuilder) : BlockBuilder := freshBuilder

/-- src/table/block_builder.rs `BlockBuilder::empty`. -/
def BlockBuilder.isEmpty (b : BlockBuilder) : Bool := b.buffer.length = 0

/-- The tail of src/table/block_builder.rs `BlockBuilder::add` after the
restart bookkeeping chose `shared`, the restart list and the counter: the
three header fields are appended with `put_fixed32` (sic — not varint32),
then the `&key[shared..non_shared]` slice (which panics when
`shared > non_shared`), then the value; `last_key` is replaced and the
counter bumped. -/
def BlockBuilder.addEntry (b : BlockBuilder) (shared : Nat) (restarts' : List Nat)
    (counter' : Nat) (key value : List Nat) : RRes BlockBuilder :=
  let nonShared := key.length - shared
  if nonShared < shared then .panicked
  else
    .ok { buffer := putFixed32 (putFixed32 (putFixed32 b.buffer shared) nonShared) value.length
            ++ (key.drop shared).take (nonShared - shared) ++ value
          restarts := restarts'
          counter := counter' + 1
          finished := b.finished
          lastKey := key }

/-- src/table/block_builder.rs `BlockBuilder::add`.  The three `assert!`s
come first (a failed assert panics); when `counter < interval` the shared
prefix with `last_key` is computed, otherwise the current buffer length
(`as u32`, hence `% 2^32`) is pushed onto the restart list and the counter
resets; then the entry is appended (`addEntry` above).  A `.panicked`
result stands for the aborted call; the builder state a panic poisons is
not observable afterwards. -/
def BlockBuilder.add (cmp : List Nat → List Nat → Int) (interval : Nat)
    (b : BlockBuilder) (key value : List Nat) : RRes BlockBuilder :=
  if b.finished then .panicked
  else if ¬ b.counter ≤ interval then .panicked
  else if ¬ (b.buffer.length = 0 ∨ cmp key b.lastKey > 0) then .panicked
  else if b.counter < interval then
    b.addEntry (sharedLen b.lastKey key) b.restarts b.counter key value
  else
    b.addEntry 0 (b.restarts ++ [b.buffer.length % 4294967296]) 0 key value

/-- src/table/block_builder.rs `BlockBuilder::finish`: appends each restart
offset and then the restart count as fixed32 and marks the builder
finished; the returned slice is the whole buffer. -/
def BlockBuilder.finish (b : BlockBuilder) : BlockBuilder :=
  { b with
    buffer := putFixed32 (b.restarts.foldl (fun acc r => putFixed32 acc r) b.buffer)
                b.restarts.length
    finished := true }

/-- Runs a sequence of `add` calls, propagating the first failure. -/
def buildAll (cmp : List Nat → List Nat → Int) (interval : Nat) :
    List (List Nat × List Nat) → BlockBuilder → RRes BlockBuilder
  | [], b => .ok b
  | (k, v) :: ops, b =>
    match BlockBuilder.add cmp interval b k v with
    | .ok b' => buildAll cmp interval ops b'
    | .err e => .err e
    | .panicked => .panicked
    | .fuelOut => .fuelOut

/-- src/table/block.rs `DecodedEntry`. -/
structure DecodedEntry where
  newSlice : List Nat
  shared : Nat
  nonShared : Nat
  valueLength : Nat
deriving DecidableEq, Repr

/-- src/table/block.rs `decode_entry`.  Fast path when the bitwise OR of
the first three bytes is `< 128`; otherwise three
`get_varint32_ptr_fallback` calls.  The final length check compares
`new_slice.len()` against `(non_shared + value_length) as usize`, a `u32`
addition that panics on overflow in a debug build. -/
def decodeEntry (p : List Nat) : RRes DecodedEntry :=
  if p.length < 3 then .err (.other "Entry missing header!")
  else
    let b0 := p.headI
    let b1 := (p.drop 1).headI
    let b2 := (p.drop 2).headI
    let afterHeader : RRes (List Nat × Nat × Nat × Nat) :=
      if (b0 ||| b1 ||| b2) < 128 then .ok (p.drop 3, b0, b1, b2)
      else
        match getVarint32Fallback p with
        | .ok (p1, shared) =>
          match getVarint32Fallback p1 with
          | .ok (p2, nonShared) =>
            match getVarint32Fallback p2 with
            | .ok (p3, valueLength) => .ok (p3, shared, nonShared, valueLength)
            | .err e => .err e
            | .panicked => .panicked
            | .fuelOut => .fuelOut
          | .err e => .err e
          | .panicked => .panicked
          | .fuelOut => .fuelOut
        | .err e => .err e
        | .panicked => .panicked
        | .fuelOut => .fuelOut
    match afterHeader with
    | .ok (newSlice, shared, nonShared, valueLength) =>
      if 4294967296 ≤ nonShared + valueLength then .panicked
      else if newSlice.length < nonShared + valueLength then .err (.other "bad block?")
      else .ok ⟨newSlice, shared, nonShared, valueLength⟩
    | .err e => .err e
    | .panicked => .panicked
    | .fuelOut => .fuelOut

/-- src/table/block.rs `BlockIterator` state: the borrowed block bytes plus
the cursor fields.  The `value_` slice of the original is the pair
`(value_offset, value_len)` into `data`. -/
structure BIter where
  data : List Nat
  valueOffset : Nat
  valueLen : Nat
  restarts : Nat
  numRestarts : Nat
  current : Nat
  restartIndex : Nat
  key : List Nat
  status : Status
deriving DecidableEq, Repr

/-- src/table/block.rs `BlockIterator::new`: `assert!(num_restarts > 0)`
aborts (panics) before any field is set when the count is zero. -/
def BIter.new (data : List Nat) (restarts numRestarts : Nat) : RRes BIter :=
  if 0 < numRestarts then
    .ok { data := data, valueOffset := 0, valueLen := 0, restarts := restarts,
          numRestarts := numRestarts, current := restarts,
          restartIndex := numRestarts, key := [], status := .ok }
  else .panicked

/-- src/table/block.rs `BlockIterator::with_status`. -/
def BIter.withStatus (it : BIter) (s : Status) : BIter := { it with status := s }

/-- src/table/block.rs `BlockIterator::next_entry_offset`. -/
def BIter.nextEntryOffset (it : BIter) : Nat := it.valueOffset + it.valueLen

/-- src/table/block.rs `BlockIterator::get_restart_point`:
`assert!(index < num_restarts)`, then `decode_fixed32` at
`restarts + index * 4` (which itself panics if fewer than 4 bytes remain). -/
def BIter.getRestartPoint (it : BIter) (index : Nat) : RRes Nat :=
  if index < it.numRestarts then decodeFixed32 (it.data.drop (it.restarts + index * 4))
  else .panicked

/-- src/table/block.rs `BlockIterator::is_valid`. -/
def BIter.isValid (it : BIter) : Bool := it.current < it.restarts

/-- src/table/block.rs `BlockIterator::seek_to_restart_point`: clears the
key, sets the restart index and points `value_offset` at the restart
offset; `value_len` is left as it was. -/
def BIter.seekToRestartPoint (it : BIter) (index : Nat) : RRes BIter :=
  match it.getRestartPoint index with
  | .ok v => .ok { it with key := [], restartIndex := index, valueOffset := v }
  | .err e => .err e
  | .panicked => .panicked
  | .fuelOut => .fuelOut

/-- src/table/block.rs `BlockIterator::corruption_error`. -/
def BIter.corruptionError (it : BIter) : BIter :=
  { it with current := it.restarts, restartIndex := it.numRestarts,
            status := .corruption "bad entry in block", key := [] }

/-- src/table/block.rs `BlockIterator::value`: asserts validity, then
returns `data[value_offset .. value_offset + value_len]` (panicking when
the range leaves the slice). -/
def BIter.value (it : BIter) : RRes (List Nat) :=
  if it.isValid then
    if it.valueOffset + it.valueLen ≤ it.data.length then
      .ok ((it.data.drop it.valueOffset).take it.valueLen)
    else .panicked
  else .panicked

/-- src/table/block.rs `parse_next_key` trailing loop: advance
`restart_index` while the next restart point's offset is below `current`.
The loop runs fewer than `num_restarts` times; fuel `num_restarts + 1`
never runs out. -/
def BIter.advanceRestarts (it : BIter) : Nat → RRes BIter
  | 0 => .fuelOut
  | fuel + 1 =>
    if it.restartIndex + 1 < it.numRestarts then
      match it.getRestartPoint (it.restartIndex + 1) with
      | .ok v =>
        if v < it.current then
          BIter.advanceRestarts { it with restartIndex := it.restartIndex + 1 } fuel
        else .ok it
      | .err e => .err e
      | .panicked => .panicked
      | .fuelOut => .fuelOut
    else .ok it

/-- src/table/block.rs `BlockIterator::parse_next_key`: sets `current` to
`next_entry_offset()`, takes `&data[current..]` (panicking when `current`
is past the end), marks the iterator invalid when no bytes remain, decodes
the entry (decode errors become the corrupt terminal state), rejects a
shared length longer than the remembered key, then REPLACES the key with
the suffix bytes decoded as UTF-8 (panicking via `.expect` on invalid
UTF-8) and sets `value_offset` to the VALUE of `non_shared` — both
faithful to the source, not to the format. -/
def BIter.parseNextKey (it0 : BIter) : RRes (BIter × Bool) :=
  let current := it0.nextEntryOffset
  if it0.data.length < current then .panicked
  else
    let it := { it0 with current := current }
    let p := it.data.drop current
    if p.length = 0 then
      .ok ({ it with current := it.restarts, restartIndex := it.numRestarts }, false)
    else
      match decodeEntry p with
      | .err _ => .ok (it.corruptionError, false)
      | .panicked => .panicked
      | .fuelOut => .fuelOut
      | .ok e =>
        if it.key.length < e.shared then .ok (it.corruptionError, false)
        else if e.newSlice.length < e.nonShared then .panicked
        else
          let kb := e.newSlice.take e.nonShared
          if utf8Valid kb then
            let it1 := { it with key := kb, valueOffset := e.nonShared,
                                 valueLen := e.valueLength }
            match it1.advanceRestarts (it1.numRestarts + 1) with
            | .ok it2 => .ok (it2, true)
            | .err er => .err er
            | .panicked => .panicked
            | .fuelOut => .fuelOut
          else .panicked

/-- src/table/block.rs `BlockIterator::step`: asserts validity then parses
the next entry. -/
def BIter.step (it : BIter) : RRes BIter :=
  if it.isValid then (it.parseNextKey).map (·.1) else .panicked

/-- src/table/block.rs `BlockIterator::seek_to_first`. -/
def BIter.seekToFirst (it : BIter) : RRes BIter :=
  match it.seekToRestartPoint 0 with
  | .ok it1 => (it1.parseNextKey).map (·.1)
  | .err e => .err e
  | .panicked => .panicked
  | .fuelOut => .fuelOut

/-- src/table/block.rs `BlockIterator::prev` backward loop: while the
restart point at `restart_index` has offset `≥ original`, either bail out
to the invalid state at `restart_index == 0` or decrement.  After the loop
the source simply returns — no forward re-parse happens.  Fuel
`restart_index + 1` covers every possible decrement. -/
def BIter.prevGo (it : BIter) (original : Nat) : Nat → RRes BIter
  | 0 => .fuelOut
  | fuel + 1 =>
    match it.getRestartPoint it.restartIndex with
    | .ok v =>
      if original ≤ v then
        if it.restartIndex = 0 then
          .ok { it with current := it.restarts, restartIndex := it.numRestarts }
        else BIter.prevGo { it with restartIndex := it.restartIndex - 1 } original fuel
      else .ok it
    | .err e => .err e
    | .panicked => .panicked
    | .fuelOut => .fuelOut

/-- src/table/block.rs `BlockIterator::prev`: asserts validity, then runs
the backward scan over the restart array and returns its result
unchanged. -/
def BIter.prev (it : BIter) : RRes BIter :=
  if it.isValid then it.prevGo it.current (it.restartIndex + 1) else .panicked

/-- src/table/block.rs `BlockIterator::seek` binary-search loop over the
restart array.  `mid = (left + right + 1) / 2`; the restart entry is
decoded (`Err` or a nonzero shared length end the whole seek in the
corrupt state, returned as `.inl`), and `mid_key` is the ENTIRE slice past
the header (`entry.new_slice`), not just the `non_shared` key bytes —
faithful to the source.  On `left == right` the chosen index is returned
as `.inr`.  Each round shrinks `right - left`, so fuel `num_restarts + 1`
never runs out. -/
def BIter.seekBinaryGo (cmp : List Nat → List Nat → Int) (it : BIter)
    (target : List Nat) : Nat → Nat → Nat → RRes (BIter ⊕ Nat)
  | _, _, 0 => .fuelOut
  | left, right, fuel + 1 =>
    if left < right then
      let mid := (left + right + 1) / 2
      match it.getRestartPoint mid with
      | .ok regionOffset =>
        if it.data.length < regionOffset then .panicked
        else
          match decodeEntry (it.data.drop regionOffset) with
          | .err _ => .ok (.inl it.corruptionError)
          | .panicked => .panicked
          | .fuelOut => .fuelOut
          | .ok e =>
            if e.shared ≠ 0 then .ok (.inl it.corruptionError)
            else if cmp e.newSlice target < 0 then
              BIter.seekBinaryGo cmp it target mid right fuel
            else
              BIter.seekBinaryGo cmp it target left (mid - 1) fuel
      | .err e => .err e
      | .panicked => .panicked
      | .fuelOut => .fuelOut
    else .ok (.inr left)

/-- src/table/block.rs `BlockIterator::seek` linear-scan loop: parse
forward until a parse failure or a key `≥ target`.  The source gives this
loop no bound, so it takes explicit fuel. -/
def BIter.seekLinearGo (cmp : List Nat → List Nat → Int) (target : List Nat) :
    Nat → BIter → RRes BIter
  | 0, _ => .fuelOut
  | fuel + 1, it =>
    match it.parseNextKey with
    | .ok (it', false) => .ok it'
    | .ok (it', true) =>
      if 0 ≤ cmp it'.key target then .ok it'
      else BIter.seekLinearGo cmp target fuel it'
    | .err e => .err e
    | .panicked => .panicked
    | .fuelOut => .fuelOut

/-- src/table/block.rs `BlockIterator::seek`: binary search over the
restart points (`right` starts at `num_restarts - 1`), then
`seek_to_restart_point(left)` and the linear forward scan.  `fuel` bounds
only the unbounded linear scan. -/
def BIter.seek (cmp : List Nat → List Nat → Int) (fuel : Nat) (it : BIter)
    (target : List Nat) : RRes BIter :=
  if it.numRestarts = 0 then .panicked
  else
    match BIter.seekBinaryGo cmp it target 0 (it.numRestarts - 1) (it.numRestarts + 1) with
    | .ok (.inl corrupted) => .ok corrupted
    | .ok (.inr left) =>
      match it.seekToRestartPoint left with
      | .ok it1 => BIter.seekLinearGo cmp target fuel it1
      | .err e => .err e
      | .panicked => .panicked
      | .fuelOut => .fuelOut
    | .err e => .err e
    | .panicked => .panicked
    | .fuelOut => .fuelOut

/-- src/table/block.rs `Block::num_restarts` (trait default method):
asserts at least 4 bytes, then decodes the fixed32 at the tail. -/
def numRestartsOf (data : List Nat) : RRes Nat :=
  if data.length < 4 then .panicked
  else decodeFixed32 (data.drop (data.length - 4))

/-- src/table/block.rs `Block::iter_slice` (trait default method): blocks
shorter than 4 bytes take the `BlockIterator::new(comparator, &[], 0, 0)
.with_status(Corruption "bad block contents")` path, and a decoded restart
count of 0 takes the bare `BlockIterator::new(comparator, &[], 0, 0)`
path — in both, `new` asserts `num_restarts > 0` first, so the
`with_status` is dead code and the call aborts. -/
def iterSlice (slice : List Nat) (restartOffset : Nat) : RRes BIter :=
  if slice.length < 4 then
    (BIter.new [] 0 0).map (fun it => it.withStatus (.corruption "bad block contents"))
  else
    match numRestartsOf slice with
    | .ok n =>
      if n = 0 then BIter.new [] 0 0
      else BIter.new slice restartOffset n
    | .err e => .err e
    | .panicked => .panicked
    | .fuelOut => .fuelOut

/-- src/table/block.rs `OwnedBlock::new`: computes
`max_restarts_allowed = (len - 4) / 4` (the `usize` subtraction panics in
a debug build when `len < 4`, and `num_restarts` would assert the same
bound), errors when the decoded restart count exceeds it, and otherwise
records `restart_offset = len - (1 + num_restarts) * 4`.  Returns the
owned data together with that offset. -/
def ownedBlockNew (contents : List Nat) : RRes (List Nat × Nat) :=
  if contents.length < 4 then .panicked
  else
    let maxRestartsAllowed := (contents.length - 4) / 4
    match numRestartsOf contents with
    | .ok n =>
      if maxRestartsAllowed < n then .err (.other "The size is too small for num_restarts()")
      else .ok (contents, contents.length - (1 + n) * 4)
    | .err e => .err e
    | .panicked => .panicked
    | .fuelOut => .fuelOut

/-- src/table/block.rs `OwnedBlock::iter` = `iter_slice` over the owned
bytes with the restart offset computed by `OwnedBlock::new`. -/
def ownedBlockIter (contents : List Nat) : RRes BIter :=
  match ownedBlockNew contents with
  | .ok (data, ro) => iterSlice data ro
  | .err e => .err e
  | .panicked => .panicked
  | .fuelOut => .fuelOut

/-- src/table/format.rs `BlockHandle`. -/
structure BlockHandle where
  offset : Nat
  size : Nat
deriving DecidableEq, Repr

/-- src/table/format.rs `BlockHandle::decode_from`: two `get_varint64`
reads from the front; returns the decoded handle and the leftover slice. -/
def blockHandleDecodeFrom (input : List Nat) : RRes (BlockHandle × List Nat) :=
  match getVarint64 input with
  | .ok (temp, offset) =>
    match getVarint64 temp with
    | .ok (leftover, size) => .ok (⟨offset, size⟩, leftover)
    | .err e => .err e
    | .panicked => .panicked
    | .fuelOut => .fuelOut
  | .err e => .err e
  | .panicked => .panicked
  | .fuelOut => .fuelOut

/-- src/table/format.rs `TABLE_MAGIC_NUMBER`. -/
def tableMagicNumber : Nat := 0xdb4775248b80fb57

/-- src/table/format.rs `ENCODED_LENGTH` = `2 * MAX_ENCODED_LENGTH + 8`. -/
def footerEncodedLength : Nat := 48

/-- The 8 bytes `Footer::encode_to` writes for the magic constant: the low
fixed32 word first, then the high word. -/
def tableMagicBytes : List Nat :=
  fixed32Bytes (tableMagicNumber % 4294967296) ++ fixed32Bytes (tableMagicNumber / 4294967296)

/-- src/table/format.rs `Footer`. -/
structure Footer where
  metaindexHandle : BlockHandle
  indexHandle : BlockHandle
deriving DecidableEq, Repr

/-- src/table/format.rs `Footer::decode_from`: reads the magic constant
from the last 8 bytes of the `ENCODED_LENGTH` footer region (the slice
`&input[ENCODED_LENGTH - 8 ..]` panics when the input is shorter than 40
bytes, and `decode_fixed32` when the magic region is shorter than 8),
fails fast with the Corruption status on a mismatch, and only then decodes
the two handles — both, faithfully to the source, from the FRONT of
`input`.  Returns the footer and the slice past the magic bytes. -/
def footerDecodeFrom (input : List Nat) : RRes (Footer × List Nat) :=
  if input.length < 40 then .panicked
  else
    let magicSlice := input.drop 40
    match decodeFixed32 magicSlice with
    | .ok lo =>
      match decodeFixed32 (magicSlice.drop 4) with
      | .ok hi =>
        if (hi <<< 32) ||| lo ≠ tableMagicNumber then
          .err (.status (.corruption "not an sstable (bad magic number)"))
        else
          match blockHandleDecodeFrom input with
          | .ok (mh, _) =>
            match blockHandleDecodeFrom input with
            | .ok (ih, _) => .ok (⟨mh, ih⟩, magicSlice.drop 8)
            | .err e => .err e
            | .panicked => .panicked
            | .fuelOut => .fuelOut
          | .err e => .err e
          | .panicked => .panicked
          | .fuelOut => .fuelOut
      | .err e => .err e
      | .panicked => .panicked
      | .fuelOut => .fuelOut
    | .err e => .err e
    | .panicked => .panicked
    | .fuelOut => .fuelOut

/-- src/table/format.rs `BlockContents`. -/
structure BlockContents where
  data : List Nat
  cachable : Bool
deriving DecidableEq, Repr

/-- src/table/format.rs `read_block`.  The file is the byte content of the
underlying `File` and `uncompress` the external snappy collaborator
(`none` = decompression failure).  Faithful to the source:
`Vec::with_capacity(n + BLOCK_TRAILER_SIZE)` only reserves capacity, so
`buff` has length 0; `file.read_exact(&mut buff.as_mut_slice())` fills
that zero-length slice, reading 0 bytes and succeeding; and `buff[n]`
then indexes past the end of the empty vector, which panics.  The
compression-type dispatch follows the source; the type values 0 (none)
and 1 (snappy) are modelled from the spec because the `options` module
with `CompressionType` is missing from src/. -/
def readBlock (uncompress : List Nat → Option (List Nat))
    (_file : List Nat) (handle : BlockHandle) : RRes BlockContents :=
  let n := handle.size
  let buff : List Nat := []
  match buff.get? n with
  | none => .panicked
  | some t =>
    if t = 0 then .ok ⟨buff, true⟩
    else if t = 1 then
      match uncompress buff with
      | some u => .ok ⟨u, true⟩
      | none => .err (.status (.corruption "corrupted compressed block contents"))
    else .err (.status (.corruption "Bad block type"))

/-! Concrete blocks used by the evaluations below. -/

/-- The finished block the builder produces from the single pair
`("a", "1") = ([97], [49])` with restart interval 16.  The fallback arm is
never taken (the first theorem about this definition proves the build
succeeds and exhibits the bytes). -/
def builtBlockA : List Nat :=
  match buildAll lexCompare 16 [([97], [49])] freshBuilder with
  | .ok b => b.finish.buffer
  | _ => []

/-- The finished block the builder produces from the single pair
`("b", "v") = ([98], [118])` with restart interval 16. -/
def builtBlockB : List Nat :=
  match buildAll lexCompare 16 [([98], [118])] freshBuilder with
  | .ok b => b.finish.buffer
  | _ => []

/-- A well-formed two-entry block in the on-disk entry format the reader
expects (varint32 headers, here all in the one-byte fast path): entries
`("a", "1")` at offset 0 and `("b", "2")` at offset 5, both restart
points, restart array `[0, 5]`, `num_restarts = 2`. -/
def wfTwoEntryBlock : List Nat :=
  [0, 1, 1, 97, 49, 0, 1, 1, 98, 50, 0, 0, 0, 0, 5, 0, 0, 0, 2, 0, 0, 0]

/-- The iterator state validly positioned on the second entry of
`wfTwoEntryBlock`: `current` at the entry's offset 5, `restart_index` on
restart point 1, the key `"b"` reconstructed, the value slice at bytes
`[9, 10)`. -/
def wfSecondEntryState : BIter :=
  ⟨wfTwoEntryBlock, 9, 1, 10, 2, 5, 1, [98], .ok⟩

/-- C1: the block round-trip claim fails on the code.  Building a block
from the single pair `("a", "1")` and iterating from `seek_to_first`
yields a valid first position whose key and value are both EMPTY (the
builder wrote the header fields as fixed32, so `decode_entry`'s fast path
reads `shared = 0, non_shared = 0, value_len = 0` from the zero bytes of
the first header), and `step` maps that state to itself (because
`value_offset`/`value_len` are 0, `next_entry_offset` stays 0), so the
iteration never yields `("a", "1")` and never becomes invalid. -/
theorem C1_round_trip_eval :
    builtBlockA = [0, 0, 0, 0, 1, 0, 0, 0, 1, 0, 0, 0, 97, 49, 0, 0, 0, 0, 1, 0, 0, 0] ∧
    (match ownedBlockIter builtBlockA with
     | .ok it => it.seekToFirst
     | .err e => .err e
     | .panicked => .panicked
     | .fuelOut => .fuelOut) = .ok ⟨builtBlockA, 0, 0, 14, 1, 0, 0, [], .ok⟩ ∧
    BIter.isValid ⟨builtBlockA, 0, 0, 14, 1, 0, 0, [], .ok⟩ = true ∧
    BIter.value ⟨builtBlockA, 0, 0, 14, 1, 0, 0, [], .ok⟩ = .ok [] ∧
    BIter.step ⟨builtBlockA, 0, 0, 14, 1, 0, 0, [], .ok⟩ =
      .ok ⟨builtBlockA, 0, 0, 14, 1, 0, 0, [], .ok⟩ := by
  decide

/-- C3: the varint claims fail on the code.  `put_varint64` never appends
the final (continuation-clear) byte, so encoding 0 appends nothing and
reports 0 bytes, and `get_varint64` on that empty encoding is the decode
error; `put_varint32 32768` emits `[128, 0, 2]` (the intermediate byte
misses the `& 127 | 128` masking), which decodes to 0, not 32768, with a
dangling byte. -/
theorem C3_varint_eval :
    putVarint64 [] 0 = ([], 0) ∧
    getVarint64 [] = .err (.status (.ioError "Unable to read varin64")) ∧
    putVarint32 [] 32768 = ([128, 0, 2], 3) ∧
    getVarint64 [128, 0, 2] = .ok ([2], 0) := by
  refine ⟨by simp [putVarint64], by decide, by decide, by decide⟩

/-- The builder state after `add("aa", "")` on a fresh builder. -/
def builderAfterAA : BlockBuilder :=
  ⟨[0, 0, 0, 0, 2, 0, 0, 0, 0, 0, 0, 0, 97, 97], [0], 1, false, [97, 97]⟩

/-- C4: the entry-encoding claim fails on the code.  `add("abc", "x")` on
a fresh builder appends the three header fields as 4-byte fixed32 values
`[0,0,0,0, 3,0,0,0, 1,0,0,0]` (the claim says varint32, which would be
`[0, 3, 1]`), and `add("aab")` after `"aa"` panics, because the appended
suffix slice is `key[shared..non_shared]` = `key[2..1]` instead of the
last `non_shared` bytes of the key. -/
theorem C4_add_encoding_eval :
    BlockBuilder.add lexCompare 16 freshBuilder [97, 98, 99] [120] =
      .ok ⟨[0, 0, 0, 0, 3, 0, 0, 0, 1, 0, 0, 0, 97, 98, 99, 120], [0], 1, false, [97, 98, 99]⟩ ∧
    BlockBuilder.add lexCompare 16 freshBuilder [97, 97] [] = .ok builderAfterAA ∧
    BlockBuilder.add lexCompare 16 builderAfterAA [97, 97, 98] [49] = .panicked := by
  decide

/-- C5: the `read_block` claim fails on the code: for EVERY file content,
block handle and decompression collaborator, `read_block` panics — the
buffer it reads into is created with `Vec::with_capacity` (length 0), so
`read_exact` reads 0 bytes instead of `handle.size + 5`, and `buff[n]`
then indexes out of bounds. -/
theorem C5_read_block_always_panics (uncompress : List Nat → Option (List Nat))
    (file : List Nat) (handle : BlockHandle) :
    readBlock uncompress file handle = .panicked := rfl

/-- C6: the `prev()` claim fails on the code.  On the valid state
positioned on the second entry of a two-entry block, `prev()` only walks
`restart_index` back to 0 and returns: the resulting iterator still has
`current = 5` and key `"b"` — the original entry, not its predecessor
`("a", "1")` — because the forward re-parse from the selected restart
point is missing from the source. -/
theorem C6_prev_eval :
    BIter.isValid wfSecondEntryState = true ∧
    wfSecondEntryState.key = [98] ∧
    wfSecondEntryState.current = 5 ∧
    wfSecondEntryState.value = .ok [50] ∧
    wfSecondEntryState.prev = .ok { wfSecondEntryState with restartIndex := 0 } := by
  decide

/-- C7: the corruption-containment claim fails on the code.  Truncating
the finished single-entry block to its first 4 bytes (well before its
8-byte trailer) and iterating aborts with a panic — `iter_slice` decodes
`num_restarts = 0` from the truncated tail and `BlockIterator::new`
asserts `num_restarts > 0` — and other truncations (first 3 or first 14
bytes) panic in `OwnedBlock::new` or return a plain error; none reaches
the claimed terminal Corruption-status iterator state. -/
theorem C7_truncation_eval :
    builtBlockA.take 4 = [0, 0, 0, 0] ∧
    ownedBlockIter (builtBlockA.take 4) = .panicked ∧
    ownedBlockIter (builtBlockA.take 3) = .panicked ∧
    ownedBlockIter (builtBlockA.take 14) =
      .err (.other "The size is too small for num_restarts()") := by
  decide

/-- C10: confirmed.  For every block slice shorter than 4 bytes, and for
every slice whose decoded `num_restarts` field is 0, `iter_slice` (the
body of `Block::iter` for both block representations) aborts on the
`assert!(num_restarts > 0)` inside `BlockIterator::new` — modelled as
`.panicked` — instead of returning an iterator carrying a Corruption
status. -/
theorem C10_degenerate_iter_aborts (data : List Nat) (restartOffset : Nat)
    (h : data.length < 4 ∨ decodeFixed32 (data.drop (data.length - 4)) = .ok 0) :
    iterSlice data restartOffset = .panicked := by
  rcases h with hlt | heq
  · simp [iterSlice, hlt, BIter.new, RRes.map]
  · by_cases hlen : data.length < 4
    · simp [iterSlice, hlen, BIter.new, RRes.map]
    · simp [iterSlice, hlen, numRestartsOf, heq, BIter.new]

/-- Witness for C10 at the concrete 4-byte block `[0,0,0,0]` (whose
`num_restarts` field decodes to 0). -/
theorem C10_degenerate_iter_aborts_witness :
    iterSlice [0, 0, 0, 0] 0 = .panicked :=
  C10_degenerate_iter_aborts [0, 0, 0, 0] 0 (Or.inr (by decide))

/-- If one round of the seek linear scan maps a state to itself (with the
parsed flag set) and its key still compares below the target, the scan
consumes all its fuel without ever returning. -/
theorem seekLinear_fixed_point (cmp : List Nat → List Nat → Int) (t : List Nat)
    (s : BIter) (hs : s.parseNextKey = .ok (s, true)) (hc : cmp s.key t < 0) :
    ∀ n, BIter.seekLinearGo cmp t n s = .fuelOut := by
  intro n
  induction n with
  | zero => rfl
  | succ n ih =>
    simp only [BIter.seekLinearGo, hs]
    rw [if_neg (by omega)]
    exact ih

/-- The iterator state the linear scan of `seek` starts from on
`builtBlockB` (after `seek_to_restart_point(0)`). -/
def seekBStart : BIter := ⟨builtBlockB, 0, 0, 14, 1, 14, 0, [], .ok⟩

/-- The state after the first parse round on `builtBlockB`: an empty key
and value at offset 0 — a fixed point of `parse_next_key`. -/
def seekBLoop : BIter := ⟨builtBlockB, 0, 0, 14, 1, 0, 0, [], .ok⟩

/-- C2: the seek claim fails on the code.  In the block built from the
single pair `("b", "v")`, the key `"b"` is present, yet `seek("b")` never
terminates, for any amount of fuel given to its linear scan: the builder's
fixed32 headers make `decode_entry` read an all-zero entry at offset 0,
`parse_next_key` then loops on that offset forever (`value_offset` and
`value_len` both 0), and the empty key always compares below the target. -/
theorem C2_seek_eval :
    builtBlockB = [0, 0, 0, 0, 1, 0, 0, 0, 1, 0, 0, 0, 98, 118, 0, 0, 0, 0, 1, 0, 0, 0] ∧
    ∀ fuel, (match ownedBlockIter builtBlockB with
             | .ok it => it.seek lexCompare fuel [98]
             | .err e => .err e
             | .panicked => .panicked
             | .fuelOut => .fuelOut) = .fuelOut := by
  refine ⟨by decide, ?_⟩
  intro fuel
  have h1 : (match ownedBlockIter builtBlockB with
             | .ok it => it.seek lexCompare fuel [98]
             | .err e => .err e
             | .panicked => .panicked
             | .fuelOut => .fuelOut) =
      BIter.seekLinearGo lexCompare [98] fuel seekBStart := rfl
  rw [h1]
  cases fuel with
  | zero => rfl
  | succ n =>
    have h2 : BIter.seekLinearGo lexCompare [98] (n + 1) seekBStart =
        BIter.seekLinearGo lexCompare [98] n seekBLoop := by
      simp only [BIter.seekLinearGo,
        (by decide : seekBStart.parseNextKey = .ok (seekBLoop, true))]
      rw [if_neg (by decide)]
    rw [h2]
    exact seekLinear_fixed_point lexCompare [98] seekBLoop (by decide) (by decide) n

/-- Placing a value in the bits above `n` with `<<<` and a value below
`2^n` with `|||` is the same as the positional sum. -/
theorem shiftLeft_lor_eq_add : ∀ (n hi lo : Nat), lo < 2 ^ n →
    (hi <<< n) ||| lo = hi * 2 ^ n + lo := by
  intro n
  induction n with
  | zero =>
    intro hi lo h
    have hlo : lo = 0 := by omega
    subst hlo
    simp
  | succ n ih =>
    intro hi lo h
    have hdec := Nat.bit_decomp lo
    have hs : hi <<< (n + 1) = Nat.bit false (hi <<< n) := by
      simp [Nat.shiftLeft_succ, Nat.bit]
    have hlt : Nat.div2 lo < 2 ^ n := by
      rw [Nat.div2_val]
      omega
    rw [← hdec, hs, Nat.lor_bit, Bool.false_or, ih hi _ hlt]
    have hb := Nat.bodd_add_div2 lo
    cases hbo : Nat.bodd lo <;>
      simp [Nat.bit, hbo] at hb ⊢ <;>
      rw [pow_succ, ← Nat.mul_assoc] <;>
      omega

/-- A list of length 8 is an explicit 8-tuple of elements. -/
theorem exists_eight (l : List Nat) (h : l.length = 8) :
    ∃ a b c d e f g i, l = [a, b, c, d, e, f, g, i] := by
  rcases l with _ | ⟨a, l⟩
  · simp at h
  rcases l with _ | ⟨b, l⟩
  · simp at h
  rcases l with _ | ⟨c, l⟩
  · simp at h
  rcases l with _ | ⟨d, l⟩
  · simp at h
  rcases l with _ | ⟨e, l⟩
  · simp at h
  rcases l with _ | ⟨f, l⟩
  · simp at h
  rcases l with _ | ⟨g, l⟩
  · simp at h
  rcases l with _ | ⟨i, l⟩
  · simp at h
  rcases l with _ | ⟨j, l⟩
  · exact ⟨a, b, c, d, e, f, g, i, rfl⟩
  · simp at h

/-- C8: confirmed.  For every footer-length (48-byte) buffer of `u8`
values whose last 8 bytes differ from the encoded table magic constant,
`Footer::decode_from` returns the Corruption error — for EVERY content of
the first 40 bytes, which also shows that no handle parsing happens
before or on a magic mismatch (the handle bytes at the front are never
consulted). -/
theorem C8_footer_magic_check (input : List Nat)
    (hlen : input.length = 48)
    (hbytes : ∀ b ∈ input, b < 256)
    (hmagic : input.drop 40 ≠ tableMagicBytes) :
    footerDecodeFrom input =
      .err (.status (.corruption "not an sstable (bad magic number)")) := by
  have hdl : (input.drop 40).length = 8 := by simp [hlen]
  obtain ⟨a, b, c, d, e, f, g, i, heq⟩ := exists_eight _ hdl
  have hmem : ∀ x ∈ [a, b, c, d, e, f, g, i], x < 256 := by
    intro x hx
    exact hbytes x (List.mem_of_mem_drop (heq ▸ hx))
  have ha : a < 256 := hmem a (by simp)
  have hb : b < 256 := hmem b (by simp)
  have hc : c < 256 := hmem c (by simp)
  have hd : d < 256 := hmem d (by simp)
  have he : e < 256 := hmem e (by simp)
  have hf : f < 256 := hmem f (by simp)
  have hg : g < 256 := hmem g (by simp)
  have hi : i < 256 := hmem i (by simp)
  have hlo : decodeFixed32 [a, b, c, d, e, f, g, i] =
      .ok (a + 256 * b + 65536 * c + 16777216 * d) := rfl
  have hhi : decodeFixed32 (([a, b, c, d, e, f, g, i] : List Nat).drop 4) =
      .ok (e + 256 * f + 65536 * g + 16777216 * i) := rfl
  have hor : ((e + 256 * f + 65536 * g + 16777216 * i) <<< 32) |||
      (a + 256 * b + 65536 * c + 16777216 * d) =
      (e + 256 * f + 65536 * g + 16777216 * i) * 4294967296 +
        (a + 256 * b + 65536 * c + 16777216 * d) := by
    have := shiftLeft_lor_eq_add 32 (e + 256 * f + 65536 * g + 16777216 * i)
      (a + 256 * b + 65536 * c + 16777216 * d) (by norm_num; omega)
    simpa using this
  have hne : ((e + 256 * f + 65536 * g + 16777216 * i) <<< 32) |||
      (a + 256 * b + 65536 * c + 16777216 * d) ≠ tableMagicNumber := by
    rw [hor]
    intro hEq
    apply hmagic
    rw [heq]
    simp only [tableMagicNumber] at hEq
    have hbytesEq : a = 87 ∧ b = 251 ∧ c = 128 ∧ d = 139 ∧
        e = 36 ∧ f = 117 ∧ g = 71 ∧ i = 219 := by omega
    obtain ⟨rfl, rfl, rfl, rfl, rfl, rfl, rfl, rfl⟩ := hbytesEq
    decide
  simp only [footerDecodeFrom]
  rw [if_neg (by omega), heq, hlo, hhi]
  simp only [hne, if_pos, ne_eq, not_false_eq_true]

/-- Witness for C8 at the all-zero 48-byte buffer. -/
theorem C8_footer_magic_check_witness :
    footerDecodeFrom (List.replicate 48 0) =
      .err (.status (.corruption "not an sstable (bad magic number)")) :=
  C8_footer_magic_check (List.replicate 48 0) (by decide) (by decide) (by decide)

/-- The builder restart-list invariant: non-empty, starts at offset 0,
strictly increasing, every offset within the buffer, and strictly inside
it once at least one entry follows the last restart. -/
def RestartInv (b : BlockBuilder) : Prop :=
  b.restarts ≠ [] ∧ b.restarts.head? = some 0 ∧ b.restarts.Chain' (· < ·) ∧
  (∀ r ∈ b.restarts, r ≤ b.buffer.length) ∧
  (1 ≤ b.counter → ∀ r ∈ b.restarts, r < b.buffer.length)

/-- A successful `addEntry` keeps the restart list and counter it was
given (plus the bump) and grows the buffer by at least the 12 header
bytes. -/
theorem addEntry_ok_spec (b : BlockBuilder) (shared : Nat) (rs : List Nat)
    (c : Nat) (k v : List Nat) (b₂ : BlockBuilder)
    (h : b.addEntry shared rs c k v = .ok b₂) :
    b₂.restarts = rs ∧ b₂.counter = c + 1 ∧
    b.buffer.length + 12 ≤ b₂.buffer.length := by
  simp only [BlockBuilder.addEntry] at h
  split at h
  · exact RRes.noConfusion h
  · injection h with h'
    subst h'
    refine ⟨rfl, rfl, ?_⟩
    simp [putFixed32, fixed32Bytes]

/-- Dissecting a successful `add`: the asserts passed, the buffer grew by
at least 12 bytes, and the restart list either stayed (when
`counter < interval`) or gained exactly the pre-call buffer length
truncated to `u32` (when `counter = interval`). -/
theorem add_ok_cases (cmp : List Nat → List Nat → Int) (interval : Nat)
    (b : BlockBuilder) (k v : List Nat) (b₂ : BlockBuilder)
    (h : BlockBuilder.add cmp interval b k v = .ok b₂) :
    b.counter ≤ interval ∧ b.buffer.length + 12 ≤ b₂.buffer.length ∧
    ((b.counter < interval ∧ b₂.restarts = b.restarts ∧ b₂.counter = b.counter + 1) ∨
     (b.counter = interval ∧
      b₂.restarts = b.restarts ++ [b.buffer.length % 4294967296] ∧ b₂.counter = 1)) := by
  simp only [BlockBuilder.add] at h
  split at h
  · exact RRes.noConfusion h
  split at h
  · exact RRes.noConfusion h
  rename_i hle
  rw [not_not] at hle
  split at h
  · exact RRes.noConfusion h
  split at h
  · rename_i hlt
    obtain ⟨hrs, hcnt, hlen⟩ := addEntry_ok_spec _ _ _ _ _ _ _ h
    exact ⟨hle, hlen, Or.inl ⟨hlt, hrs, hcnt⟩⟩
  · rename_i hge
    obtain ⟨hrs, hcnt, hlen⟩ := addEntry_ok_spec _ _ _ _ _ _ _ h
    exact ⟨hle, hlen, Or.inr ⟨by omega, hrs, hcnt⟩⟩

/-- A successful `add` whose result buffer still fits in `u32` preserves
the restart-list invariant (the interval must be positive, which
`BlockBuilder::new` asserts). -/
theorem add_preserves_inv (cmp : List Nat → List Nat → Int) (interval : Nat)
    (hint : 1 ≤ interval) (b b₂ : BlockBuilder) (k v : List Nat)
    (h : BlockBuilder.add cmp interval b k v = .ok b₂)
    (hovf : b₂.buffer.length < 4294967296)
    (hinv : RestartInv b) : RestartInv b₂ := by
  obtain ⟨hle, hlen, hcase⟩ := add_ok_cases _ _ _ _ _ _ h
  obtain ⟨hne, hhead, hchain, hub, hstrict⟩ := hinv
  rcases hcase with ⟨hlt, hrs, hcnt⟩ | ⟨hceq, hrs, hcnt⟩
  · refine ⟨by rw [hrs]; exact hne, by rw [hrs]; exact hhead,
      by rw [hrs]; exact hchain, ?_, ?_⟩
    · intro r hr
      rw [hrs] at hr
      have := hub r hr
      omega
    · intro _ r hr
      rw [hrs] at hr
      have := hub r hr
      omega
  · have holen : b.buffer.length < 4294967296 := by omega
    have hrs' : b₂.restarts = b.restarts ++ [b.buffer.length] := by
      rw [hrs, Nat.mod_eq_of_lt holen]
    have hstrict' : ∀ r ∈ b.restarts, r < b.buffer.length := hstrict (by omega)
    refine ⟨by simp [hrs'], ?_, ?_, ?_, ?_⟩
    · rw [hrs', List.head?_append_of_ne_nil _ hne]
      exact hhead
    · rw [hrs', List.chain'_append]
      refine ⟨hchain, List.chain'_singleton _, ?_⟩
      intro x hx y hy
      simp only [List.head?_cons, Option.mem_def, Option.some.injEq] at hy
      subst hy
      exact hstrict' x (List.mem_of_mem_getLast? hx)
    · intro r hr
      rw [hrs'] at hr
      rcases List.mem_append.1 hr with h' | h'
      · have := hstrict' r h'
        omega
      · simp at h'
        omega
    · intro _ r hr
      rw [hrs'] at hr
      rcases List.mem_append.1 hr with h' | h'
      · have := hstrict' r h'
        omega
      · simp at h'
        omega

/-- `add` only ever appends to the buffer, so `buildAll` never shrinks
it. -/
theorem buildAll_mono (cmp : List Nat → List Nat → Int) (interval : Nat) :
    ∀ (ops : List (List Nat × List Nat)) (b b' : BlockBuilder),
      buildAll cmp interval ops b = .ok b' →
      b.buffer.length ≤ b'.buffer.length := by
  intro ops
  induction ops with
  | nil =>
    intro b b' h
    injection h with h'
    subst h'
    exact Nat.le_refl _
  | cons kv ops ih =>
    intro b b' h
    obtain ⟨k, v⟩ := kv
    simp only [buildAll] at h
    cases hadd : BlockBuilder.add cmp interval b k v with
    | ok b₁ =>
      rw [hadd] at h
      obtain ⟨_, hlen, _⟩ := add_ok_cases _ _ _ _ _ _ hadd
      have := ih b₁ b' h
      omega
    | err e => rw [hadd] at h; exact RRes.noConfusion h
    | panicked => rw [hadd] at h; exact RRes.noConfusion h
    | fuelOut => rw [hadd] at h; exact RRes.noConfusion h

/-- A successful `buildAll` run whose final buffer fits in `u32`
preserves the restart-list invariant. -/
theorem buildAll_inv (cmp : List Nat → List Nat → Int) (interval : Nat)
    (hint : 1 ≤ interval) :
    ∀ (ops : List (List Nat × List Nat)) (b b' : BlockBuilder),
      buildAll cmp interval ops b = .ok b' →
      b'.buffer.length < 4294967296 → RestartInv b → RestartInv b' := by
  intro ops
  induction ops with
  | nil =>
    intro b b' h _ hinv
    injection h with h'
    subst h'
    exact hinv
  | cons kv ops ih =>
    intro b b' h hovf hinv
    obtain ⟨k, v⟩ := kv
    simp only [buildAll] at h
    cases hadd : BlockBuilder.add cmp interval b k v with
    | ok b₁ =>
      rw [hadd] at h
      have h₁len : b₁.buffer.length < 4294967296 :=
        Nat.lt_of_le_of_lt (buildAll_mono cmp interval ops b₁ b' h) hovf
      exact ih b₁ b' h hovf (add_preserves_inv cmp interval hint b b₁ k v hadd h₁len hinv)
    | err e => rw [hadd] at h; exact RRes.noConfusion h
    | panicked => rw [hadd] at h; exact RRes.noConfusion h
    | fuelOut => rw [hadd] at h; exact RRes.noConfusion h

/-- C9, as amended: after construction / reset (`freshBuilder`, the
`ops = []` case) and after every successful sequence of `add` calls whose
buffer stays below `2^32` bytes, the restart list is non-empty, starts
with 0 and is strictly increasing; and a single successful `add` pushes
the pre-call buffer length as a new restart offset exactly when the entry
count since the last restart has reached the interval.  The `2^32` bound
is forced by the `as u32` cast in the restart push, which wraps on larger
buffers (the counterexample theorem further below exhibits the wrap). -/
theorem C9_restart_list_invariant (cmp : List Nat → List Nat → Int)
    (interval : Nat) (ops : List (List Nat × List Nat))
    (b' b b₂ : BlockBuilder) (k v : List Nat)
    (hint : 1 ≤ interval)
    (hrun : buildAll cmp interval ops freshBuilder = .ok b')
    (hovf : b'.buffer.length < 4294967296)
    (hblen : b.buffer.length < 4294967296)
    (hadd : BlockBuilder.add cmp interval b k v = .ok b₂) :
    (b'.restarts ≠ [] ∧ b'.restarts.head? = some 0 ∧
      b'.restarts.Chain' (· < ·)) ∧
    b₂.restarts =
      (if b.counter = interval then b.restarts ++ [b.buffer.length]
       else b.restarts) := by
  constructor
  · have hfresh : RestartInv freshBuilder := by
      refine ⟨by simp [freshBuilder], by simp [freshBuilder], ?_, ?_, ?_⟩ <;>
        simp [freshBuilder]
    obtain ⟨h1, h2, h3, _, _⟩ := buildAll_inv cmp interval hint ops _ _ hrun hovf hfresh
    exact ⟨h1, h2, h3⟩
  · obtain ⟨hle, _, hcase⟩ := add_ok_cases _ _ _ _ _ _ hadd
    rcases hcase with ⟨hlt, hrs, _⟩ | ⟨hceq, hrs, _⟩
    · rw [if_neg (by omega), hrs]
    · rw [if_pos hceq, hrs, Nat.mod_eq_of_lt hblen]

/-- The builder state after adding `("a", "1")` with restart interval 1. -/
def builderOneEntry : BlockBuilder :=
  ⟨[0, 0, 0, 0, 1, 0, 0, 0, 1, 0, 0, 0, 97, 49], [0], 1, false, [97]⟩

/-- The builder state after adding `("a", "1")` then `("b", "2")` with
restart interval 1: the second add pushed restart offset 14. -/
def builderTwoEntries : BlockBuilder :=
  ⟨[0, 0, 0, 0, 1, 0, 0, 0, 1, 0, 0, 0, 97, 49,
    0, 0, 0, 0, 1, 0, 0, 0, 1, 0, 0, 0, 98, 50], [0, 14], 1, false, [98]⟩

/-- Witness for C9: the two-entry build at interval 1, whose second `add`
(from `builderOneEntry`, where the counter has reached the interval)
pushes restart offset 14. -/
theorem C9_restart_list_invariant_witness :
    (builderTwoEntries.restarts ≠ [] ∧
      builderTwoEntries.restarts.head? = some 0 ∧
      builderTwoEntries.restarts.Chain' (· < ·)) ∧
    builderTwoEntries.restarts =
      (if builderOneEntry.counter = 1 then
        builderOneEntry.restarts ++ [builderOneEntry.buffer.length]
       else builderOneEntry.restarts) :=
  C9_restart_list_invariant lexCompare 1 [([97], [49]), ([98], [50])]
    builderTwoEntries builderOneEntry builderTwoEntries [98] [50]
    (by decide) (by decide) (by decide) (by decide) (by decide)

/-- Adding `("a", v)` with a `2^32 - 13`-byte value to a fresh builder:
the entry is 13 header/key bytes plus the value, so the buffer length
becomes exactly `2^32`. -/
theorem add_huge_first_step (v : List Nat) (hv : v.length = 4294967283) :
    BlockBuilder.add lexCompare 1 freshBuilder [97] v =
      .ok ⟨[0, 0, 0, 0, 1, 0, 0, 0, 243, 255, 255, 255, 97] ++ v,
           [0], 1, false, [97]⟩ := by
  simp [BlockBuilder.add, BlockBuilder.addEntry, freshBuilder, sharedLen,
    putFixed32, fixed32Bytes, hv]

/-- The next `add` pushes `buffer.len() as u32 = 2^32 % 2^32 = 0` onto
the restart list: the `u32` cast wraps and the new "offset" collides with
the initial 0. -/
theorem add_huge_second_step (v : List Nat) (hv : v.length = 4294967283) :
    BlockBuilder.add lexCompare 1
      ⟨[0, 0, 0, 0, 1, 0, 0, 0, 243, 255, 255, 255, 97] ++ v, [0], 1, false, [97]⟩
      [98] [] =
    .ok ⟨([0, 0, 0, 0, 1, 0, 0, 0, 243, 255, 255, 255, 97] ++ v)
           ++ [0, 0, 0, 0, 1, 0, 0, 0, 0, 0, 0, 0, 98],
         [0, 0], 1, false, [98]⟩ := by
  simp [BlockBuilder.add, BlockBuilder.addEntry, sharedLen,
    putFixed32, fixed32Bytes, hv, lexCompare]

/-- Counterexample to C9 exactly as stated: a sequence of two valid `add`
calls (strictly increasing keys `"a" < "b"`, interval 1) whose first
value is `2^32 - 13` bytes long leaves the restart list `[0, 0]` — not
strictly increasing, and the pushed offset 0 is not the buffer length
`2^32` — because `add` pushes `self.buffer.len() as u32`, which wraps. -/
theorem C9_u32_wrap_counterexample :
    buildAll lexCompare 1
        [([97], List.replicate 4294967283 0), ([98], [])] freshBuilder =
      .ok ⟨([0, 0, 0, 0, 1, 0, 0, 0, 243, 255, 255, 255, 97] ++
              List.replicate 4294967283 0)
             ++ [0, 0, 0, 0, 1, 0, 0, 0, 0, 0, 0, 0, 98],
           [0, 0], 1, false, [98]⟩ ∧
    ¬ ([0, 0] : List Nat).Chain' (· < ·) := by
  have hv : (List.replicate 4294967283 (0 : Nat)).length = 4294967283 :=
    List.length_replicate _ _
  constructor
  · rw [buildAll, add_huge_first_step _ hv]
    show buildAll lexCompare 1 [([98], [])]
        ⟨[0, 0, 0, 0, 1, 0, 0, 0, 243, 255, 255, 255, 97] ++
            List.replicate 4294967283 0, [0], 1, false, [97]⟩ = _
    rw [buildAll, add_huge_second_step _ hv]
    rfl
  · simp [List.chain'_cons, List.chain'_singleton]

end Rubble
